import Mathlib

/-!
Shallow embedding of the three log-pull scripts of the repository
(`log-pull-gitlabsas.py`, `log-pull-okta.py`, `log-pull-gw.py`):
JSON-like event values, flatteners, dedup writers, watermark loading,
pagination loops, and the per-source pull cycles.

Modelling conventions used throughout:
* Timestamps: an ISO-8601 timestamp string is represented by its epoch
  value as `Json.num t`; `dateutil.parser.isoparse` / `datetime.fromisoformat`
  applied to such a value yields `t` (`Json.asTime`), and raises on any
  other value; `strftime`/`isoformat` round-trips are the identity.
* The destination log file is a list of `Line`s: `Line.entry j` is a line
  that `json.loads` decodes to the dict `j`, `Line.bad s` is a line on
  which `json.loads` raises `JSONDecodeError`.
* Exceptions are modelled with `Except String` or an `Option String`
  error component; the string names the Python exception.
-/

/-- A Python value as handled by the scripts: the JSON scalars, nested
objects and arrays, plus `pyobj`, a stand-in for a Python object that
`json.dumps` cannot serialize (it raises `TypeError` on it). -/
inductive Json where
  | str (s : String)
  | num (n : Int)
  | bool (b : Bool)
  | null
  | pyobj (tag : Nat)
  | obj (fields : List (String × Json))
  | arr (items : List Json)

/-- A Python dict with string keys, as an association list (first match wins,
as for a dict whose keys are unique). -/
abbrev PyDict := List (String × Json)

mutual

/-- Python `==` on `Json` values (used for `in` tests on sets of identity
keys). -/
def Json.jeq : Json → Json → Bool
  | .str s, .str t => s == t
  | .num a, .num b => a == b
  | .bool a, .bool b => a == b
  | .null, .null => true
  | .pyobj a, .pyobj b => a == b
  | .obj a, .obj b => jeqFields a b
  | .arr a, .arr b => jeqItems a b
  | _, _ => false

/-- Pointwise equality of dict entry lists. -/
def jeqFields : List (String × Json) → List (String × Json) → Bool
  | [], [] => true
  | (k, v) :: r, (k2, v2) :: r2 => k == k2 && Json.jeq v v2 && jeqFields r r2
  | _, _ => false

/-- Pointwise equality of value lists. -/
def jeqItems : List Json → List Json → Bool
  | [], [] => true
  | v :: r, v2 :: r2 => Json.jeq v v2 && jeqItems r r2
  | _, _ => false

end

/-- Python `v in s` for a set of `Json` values modelled as a list. -/
def jmem (v : Json) : List Json → Bool
  | [] => false
  | w :: rest => Json.jeq v w || jmem v rest

/-- Dict lookup: `d[key]` / `d.get(key)`. -/
def assocGet {α : Type} : List (String × α) → String → Option α
  | [], _ => none
  | (k, v) :: rest, key => if k = key then some v else assocGet rest key

/-- Dict assignment `d[key] = v`: overwrite in place if the key exists
(keeping its position, as CPython dicts do), else append. -/
def assocSet (l : List (String × Json)) (key : String) (v : Json) : List (String × Json) :=
  match l with
  | [] => [(key, v)]
  | (k, w) :: rest => if k = key then (key, v) :: rest else (k, w) :: assocSet rest key v

example : assocGet (assocSet [("a", Json.num 1), ("b", Json.num 2)] "a" (Json.num 9)) "a"
    = some (Json.num 9) := rfl

example : jmem (Json.obj [("a", Json.num 1)]) [Json.num 2, Json.obj [("a", Json.num 1)]]
    = true := rfl

mutual

theorem Json.jeq_refl : ∀ a : Json, Json.jeq a a = true
  | .str s => by simp [Json.jeq]
  | .num a => by simp [Json.jeq]
  | .bool a => by simp [Json.jeq]
  | .null => by simp [Json.jeq]
  | .pyobj a => by simp [Json.jeq]
  | .obj fs => by simp [Json.jeq]; exact jeqFields_refl fs
  | .arr xs => by simp [Json.jeq]; exact jeqItems_refl xs

theorem jeqFields_refl : ∀ l : List (String × Json), jeqFields l l = true
  | [] => by simp [jeqFields]
  | (k, v) :: rest => by
      simp [jeqFields]
      exact ⟨Json.jeq_refl v, jeqFields_refl rest⟩

theorem jeqItems_refl : ∀ l : List Json, jeqItems l l = true
  | [] => by simp [jeqItems]
  | v :: rest => by
      simp [jeqItems]
      exact ⟨Json.jeq_refl v, jeqItems_refl rest⟩

end

/-- Membership of a value in a set that contains it at the head. -/
theorem jmem_cons_self (v : Json) (l : List Json) : jmem v (v :: l) = true := by
  simp [jmem, Json.jeq_refl]

/-- True when a value is neither a mapping nor a sequence (the shapes a
`FlatEvent` value may take). -/
def Json.isScalar : Json → Bool
  | .obj _ => false
  | .arr _ => false
  | _ => true

/-- Parsing a value as a timestamp (`dateutil.parser.isoparse` /
`datetime.fromisoformat` composed with the epoch-value convention):
succeeds exactly on the timestamp values `Json.num t`. -/
def Json.asTime : Json → Option Int
  | .num t => some t
  | _ => none

mutual

/-- Whether `json.dumps` succeeds on the value (it raises `TypeError`
exactly when the value contains a non-JSON-serializable `pyobj`). -/
def Json.serializable : Json → Bool
  | .pyobj _ => false
  | .obj fs => serializableFields fs
  | .arr xs => serializableItems xs
  | _ => true

/-- `json.dumps` succeeds on every value of the entry list. -/
def serializableFields : List (String × Json) → Bool
  | [] => true
  | (_, v) :: rest => v.serializable && serializableFields rest

/-- `json.dumps` succeeds on every value of the list. -/
def serializableItems : List Json → Bool
  | [] => true
  | v :: rest => v.serializable && serializableItems rest

end

/-- One line of a destination log file: either a line that `json.loads`
decodes to a dict, or a line on which `json.loads` raises
`JSONDecodeError`. -/
inductive Line where
  | entry (j : PyDict)
  | bad (s : String)

/-- The first line of the list that `json.loads` decodes (lines raising
`JSONDecodeError` are skipped). -/
def firstDecodable : List Line → Option PyDict
  | [] => none
  | Line.entry j :: _ => some j
  | Line.bad _ :: rest => firstDecodable rest

/-- The dict literal `{"source": src, **event}` (equally, `d = {"source": src};
d.update(event)`): the `source` field first, then the event's entries, an
event entry named `source` overwriting the value in place. -/
def mergeSourceFirst (src : Json) (e : PyDict) : PyDict :=
  e.foldl (fun a kv => assocSet a kv.1 kv.2) [("source", src)]

/-- All values of the dict are scalars (no mapping or sequence values). -/
def valsScalar (l : PyDict) : Bool :=
  l.all (fun kv => kv.2.isScalar)

namespace GW

mutual

/-- The inner `flatten(x, name)` helper of `flatten_json` in
`log-pull-gw.py`, with the mutated `out` dict threaded explicitly:
dicts recurse with `name + a + '_'`, lists recurse positionally with
`name + str(i) + '_'`, anything else is assigned to `out[name[:-1]]`. -/
def flatten (x : Json) (name : String) (out : PyDict) : PyDict :=
  match x with
  | Json.obj fields => flattenObj fields name out
  | Json.arr items => flattenItems items 0 name out
  | Json.str s => assocSet out (name.dropRight 1) (Json.str s)
  | Json.num n => assocSet out (name.dropRight 1) (Json.num n)
  | Json.bool b => assocSet out (name.dropRight 1) (Json.bool b)
  | Json.null => assocSet out (name.dropRight 1) Json.null
  | Json.pyobj t => assocSet out (name.dropRight 1) (Json.pyobj t)

/-- The `for a in x` loop of `flatten` over a dict's entries. -/
def flattenObj (fields : List (String × Json)) (name : String) (out : PyDict) : PyDict :=
  match fields with
  | [] => out
  | (a, v) :: rest => flattenObj rest name (flatten v (name ++ a ++ "_") out)

/-- The `for a in x` loop of `flatten` over a list, with the running
index `i`. -/
def flattenItems (items : List Json) (i : Nat) (name : String) (out : PyDict) : PyDict :=
  match items with
  | [] => out
  | v :: rest => flattenItems rest (i + 1) name (flatten v (name ++ toString i ++ "_") out)

end

/-- `flatten_json(y)` of `log-pull-gw.py`. -/
def flatten_json (y : Json) : PyDict :=
  flatten y "" []

end GW

example : GW.flatten_json (Json.obj [("id", Json.obj [("time", Json.num 7)]),
    ("tags", Json.arr [Json.str "a", Json.str "b"])])
    = [("id_time", Json.num 7), ("tags_0", Json.str "a"), ("tags_1", Json.str "b")] := rfl

/-- Lookup after assignment: the assigned key reads back the new value,
every other key is unchanged. -/
theorem assocGet_assocSet (l : PyDict) (k : String) (v : Json) (key : String) :
    assocGet (assocSet l k v) key = if k = key then some v else assocGet l key := by
  induction l with
  | nil => by_cases h : k = key <;> simp [assocSet, assocGet, h]
  | cons hd tl ih =>
      obtain ⟨k0, v0⟩ := hd
      by_cases h0 : k0 = k
      · by_cases h : k = key <;> simp [assocSet, assocGet, h0, h]
      · by_cases h : k0 = key
        · subst h
          have : ¬ k = k0 := fun he => h0 he.symm
          simp [assocSet, assocGet, h0, this]
        · simp [assocSet, assocGet, h0, h, ih]

/-- Assignment never removes a key. -/
theorem assocGet_assocSet_isSome (l : PyDict) (k : String) (v : Json) (key : String)
    (h : (assocGet l key).isSome = true) : (assocGet (assocSet l k v) key).isSome = true := by
  rw [assocGet_assocSet]
  by_cases hk : k = key <;> simp [hk, h]

/-- A fold of assignments whose keys (through `g`) all differ from `key`
leaves the lookup of `key` unchanged. -/
theorem assocGet_foldl_assocSet_ne (g : String × Json → String) (l : List (String × Json))
    (base : PyDict) (key : String) (h : ∀ kv ∈ l, g kv ≠ key) :
    assocGet (l.foldl (fun a kv => assocSet a (g kv) kv.2) base) key = assocGet base key := by
  induction l generalizing base with
  | nil => rfl
  | cons hd tl ih =>
      have hhd : g hd ≠ key := h hd (List.mem_cons_self hd tl)
      have htl : ∀ kv ∈ tl, g kv ≠ key := fun kv hm => h kv (List.mem_cons_of_mem hd hm)
      simp only [List.foldl_cons]
      rw [ih _ htl, assocGet_assocSet]
      simp [hhd]

/-- A fold of assignments never removes a key. -/
theorem assocGet_foldl_assocSet_isSome (g : String × Json → String) (l : List (String × Json))
    (base : PyDict) (key : String) (h : (assocGet base key).isSome = true) :
    (assocGet (l.foldl (fun a kv => assocSet a (g kv) kv.2) base) key).isSome = true := by
  induction l generalizing base with
  | nil => exact h
  | cons hd tl ih =>
      simp only [List.foldl_cons]
      exact ih _ (assocGet_assocSet_isSome _ _ _ _ h)

/-- If the entry list has no duplicate keys, folding its entries as
assignments over any base dict makes each of its keys read back its
value. -/
theorem assocGet_foldl_assocSet_of_mem (l : List (String × Json)) (base : PyDict)
    (key : String) (v : Json) (hnd : (l.map Prod.fst).Nodup) (hget : assocGet l key = some v) :
    assocGet (l.foldl (fun a kv => assocSet a kv.1 kv.2) base) key = some v := by
  induction l generalizing base with
  | nil => simp [assocGet] at hget
  | cons hd tl ih =>
      obtain ⟨k0, v0⟩ := hd
      simp only [List.map_cons, List.nodup_cons] at hnd
      obtain ⟨hk0, hndtl⟩ := hnd
      by_cases h : k0 = key
      · subst h
        simp only [assocGet, if_pos rfl] at hget
        injection hget with hget
        subst hget
        simp only [List.foldl_cons]
        have hne : ∀ kv ∈ tl, kv.1 ≠ k0 := by
          intro kv hm he
          exact hk0 (he ▸ List.mem_map_of_mem Prod.fst hm)
        have := assocGet_foldl_assocSet_ne (fun kv => kv.1) tl
          (assocSet base k0 v0) k0 hne
        simp only at this
        rw [this, assocGet_assocSet]
        simp
      · simp only [assocGet, if_neg h] at hget
        simp only [List.foldl_cons]
        exact ih _ hndtl hget

/-- Assigning a scalar value keeps the dict scalar-valued. -/
theorem valsScalar_assocSet (l : PyDict) (k : String) (v : Json)
    (hl : valsScalar l = true) (hv : v.isScalar = true) :
    valsScalar (assocSet l k v) = true := by
  induction l with
  | nil => simpa [assocSet, valsScalar]
  | cons hd tl ih =>
      obtain ⟨k0, v0⟩ := hd
      simp only [valsScalar, List.all_cons, Bool.and_eq_true] at hl
      by_cases h : k0 = k
      · simp [assocSet, h, valsScalar, hv, hl.2]
      · have := ih hl.2
        simp only [valsScalar] at this
        simp [assocSet, h, valsScalar, hl.1, this]

mutual

theorem GW.flatten_valsScalar (x : Json) (name : String) (out : PyDict)
    (h : valsScalar out = true) : valsScalar (GW.flatten x name out) = true :=
  match x with
  | Json.obj fields => by
      rw [GW.flatten]
      exact GW.flattenObj_valsScalar fields name out h
  | Json.arr items => by
      rw [GW.flatten]
      exact GW.flattenItems_valsScalar items 0 name out h
  | Json.str s => by
      rw [GW.flatten]
      exact valsScalar_assocSet _ _ _ h rfl
  | Json.num n => by
      rw [GW.flatten]
      exact valsScalar_assocSet _ _ _ h rfl
  | Json.bool b => by
      rw [GW.flatten]
      exact valsScalar_assocSet _ _ _ h rfl
  | Json.null => by
      rw [GW.flatten]
      exact valsScalar_assocSet _ _ _ h rfl
  | Json.pyobj t => by
      rw [GW.flatten]
      exact valsScalar_assocSet _ _ _ h rfl

theorem GW.flattenObj_valsScalar (fields : List (String × Json)) (name : String) (out : PyDict)
    (h : valsScalar out = true) : valsScalar (GW.flattenObj fields name out) = true :=
  match fields with
  | [] => by rw [GW.flattenObj]; exact h
  | (a, v) :: rest => by
      rw [GW.flattenObj]
      exact GW.flattenObj_valsScalar rest name _ (GW.flatten_valsScalar v _ out h)

theorem GW.flattenItems_valsScalar (items : List Json) (i : Nat) (name : String) (out : PyDict)
    (h : valsScalar out = true) : valsScalar (GW.flattenItems items i name out) = true :=
  match items with
  | [] => by rw [GW.flattenItems]; exact h
  | v :: rest => by
      rw [GW.flattenItems]
      exact GW.flattenItems_valsScalar rest (i + 1) name _ (GW.flatten_valsScalar v _ out h)

end

namespace Gitlab

/-- One HTTP response of the GitLab audit-events endpoint: a 200 response
carrying the decoded JSON body and the `x-total-pages` / `x-page` headers
(missing headers default to 1 in the code), or a non-200 response. -/
inductive Resp where
  | ok (data : List PyDict) (xTotalPages : Nat) (xPage : Nat)
  | err (status : Nat) (text : String)

/-- Whether the response is a non-200 response. -/
def Resp.isErr : Resp → Bool
  | .ok _ _ _ => false
  | .err _ _ => true

/-- `get_logs` of `log-pull-gitlabsas.py`, with the `results` list threaded
explicitly. CPython evaluates the default value `results=[]` once at
function definition time, so every call that omits `results` shares one
mutable list, which `results.extend(data)` mutates; the first component of
the result is the returned list, the second is the state of that shared
list after the call. The server is an oracle from the `page` parameter to
the response; `fuel` bounds the recursion depth (the code has no bound:
`none` means the recursion did not finish within `fuel` calls). -/
def get_logs_shared (server : Nat → Resp) : Nat → List PyDict → Nat →
    Option (List PyDict) × List PyDict
  | _, results, 0 => (none, results)
  | page, results, fuel + 1 =>
    match server page with
    | Resp.err _ _ => (some [], results)
    | Resp.ok data tp cp =>
      if data.isEmpty then (some results, results)
      else
        let results := results ++ data
        if cp < tp then get_logs_shared server (page + 1) results fuel
        else (some results, results)

/-- `get_logs` called with an explicit (or fresh) `results` list: just the
returned value. -/
def get_logs (server : Nat → Resp) (page : Nat) (results : List PyDict) (fuel : Nat) :
    Option (List PyDict) :=
  (get_logs_shared server page results fuel).1

/-- `get_last_timestamp` of `log-pull-gitlabsas.py`: the `created_at` of the
last line of the log file that `json.loads` decodes, reformatted through
`isoparse`/`strftime` (which raise on a missing or non-timestamp
`created_at`); if the file is missing, empty, or has no decodable line, a
default of 5 hours before the current time. -/
def get_last_timestamp (store : List Line) (now : Int) : Except String Int :=
  match firstDecodable store.reverse with
  | some j =>
    match (assocGet j "created_at").bind Json.asTime with
    | some t => Except.ok t
    | none => Except.error "KeyError"
  | none => Except.ok (now - 5 * 3600)

/-- The conditional second half of one `flatten_details_field` loop
iteration: when the key is `registration_details` and its value is a
dict, additionally assign `details_registration_<reg_key>` for each of
its entries; otherwise leave the dict as it is. -/
def regStep (f1 : PyDict) (key : String) (value : Json) : PyDict :=
  if key = "registration_details" then
    match value with
    | Json.obj regs =>
        regs.foldl (fun a kv => assocSet a ("details_registration_" ++ kv.1) kv.2) f1
    | _ => f1
  else f1

/-- The `for key, value in details.items()` loop of `flatten_details_field`:
assign `details_<key>`, then the `registration_details` step
(`regStep`). -/
def flattenDetailsLoop (flattened : PyDict) : List (String × Json) → PyDict
  | [] => flattened
  | (key, value) :: rest =>
      flattenDetailsLoop (regStep (assocSet flattened ("details_" ++ key) value) key value) rest

/-- `flatten_details_field` of `log-pull-gitlabsas.py`: start from a copy of
the event; when `event.get('details', {})` is a dict, run the flattening
loop over its entries (a missing `details` gives the empty dict, whose
loop is a no-op; a non-dict `details` skips the loop). -/
def flatten_details_field (event : PyDict) : PyDict :=
  match assocGet event "details" with
  | some (Json.obj dfields) => flattenDetailsLoop event dfields
  | some _ => event
  | none => event

/-- The keys that the `flatten_details_field` loop assigns for the given
event: `details_<key>` for each entry of the `details` dict, plus
`details_registration_<reg_key>` for the entries of a
`registration_details` dict value. -/
def genKeysLoop : List (String × Json) → List String
  | [] => []
  | (key, value) :: rest =>
    ("details_" ++ key) ::
      ((if key = "registration_details" then
          match value with
          | Json.obj regs => regs.map (fun r => "details_registration_" ++ r.1)
          | _ => []
        else []) ++ genKeysLoop rest)

/-- All keys assigned by `flatten_details_field` on the given event. -/
def genKeys (event : PyDict) : List String :=
  match assocGet event "details" with
  | some (Json.obj dfields) => genKeysLoop dfields
  | some _ => []
  | none => []

/-- The scan of the existing log file in `write_logs`: collect
`log_entry['id']` of every line that decodes, skipping lines on which
`json.loads` raises; a decoded line without an `id` field raises an
uncaught `KeyError`. -/
def scan_ids : List Line → Except String (List Json)
  | [] => Except.ok []
  | Line.bad _ :: rest => scan_ids rest
  | Line.entry j :: rest =>
    match assocGet j "id" with
    | none => Except.error "KeyError"
    | some v => (scan_ids rest).map (fun ex => v :: ex)

/-- The append loop of `write_logs`: for each event, read `event['id']`
(uncaught `KeyError` if missing), skip it when the id is already known,
otherwise serialize `{"source": "gitlab-events", **event}` (uncaught
`TypeError` when `json.dumps` fails, aborting the loop with the lines
written so far persisted) and append the line, learning the id. -/
def write_loop (existing : List Json) : List PyDict → List Line → List Line × Option String
  | [], acc => (acc, none)
  | e :: rest, acc =>
    match assocGet e "id" with
    | none => (acc, some "KeyError")
    | some k =>
      if jmem k existing then write_loop existing rest acc
      else
        let me := mergeSourceFirst (Json.str "gitlab-events") e
        if serializableFields me then write_loop (k :: existing) rest (acc ++ [Line.entry me])
        else (acc, some "TypeError")

/-- `write_logs` of `log-pull-gitlabsas.py`: scan the existing store for
known ids, then append the new, deduplicated lines; the first component is
the store after the call, the second the uncaught exception if one was
raised. -/
def write_logs (store : List Line) (events : List PyDict) : List Line × Option String :=
  match scan_ids store with
  | Except.error e => (store, some e)
  | Except.ok ex =>
    let r := write_loop ex events []
    (store ++ r.1, r.2)

/-- One run of `main()` of `log-pull-gitlabsas.py` over the destination
store: load the watermark from the log file, fetch with
`created_after` set to it (the server oracle takes the watermark and the
page), and if any logs came back, flatten and write them. The first
component is the store after the run, the second the uncaught exception if
one was raised (fuel exhaustion of the unbounded pagination recursion is
reported like an error). -/
def cycle (server : Int → Nat → Resp) (fuel : Nat) (store : List Line) (now : Int) :
    List Line × Option String :=
  match get_last_timestamp store now with
  | Except.error e => (store, some e)
  | Except.ok wm =>
    match get_logs (server wm) 1 [] fuel with
    | none => (store, some "fuel")
    | some logs =>
      if logs.isEmpty then (store, none)
      else write_logs store (logs.map flatten_details_field)

end Gitlab

example :
    Gitlab.flatten_details_field
      [("id", Json.num 1), ("details", Json.obj [("who", Json.str "a"),
        ("registration_details", Json.obj [("ip", Json.str "x")])])]
    = [("id", Json.num 1),
       ("details", Json.obj [("who", Json.str "a"),
         ("registration_details", Json.obj [("ip", Json.str "x")])]),
       ("details_who", Json.str "a"),
       ("details_registration_details", Json.obj [("ip", Json.str "x")]),
       ("details_registration_ip", Json.str "x")] := rfl

namespace Okta

/-- `get_last_timestamp` of `log-pull-okta.py`: the `published` of the last
line of the log file that `json.loads` decodes (`event['published']`
raises an uncaught `KeyError` when missing, `fromisoformat` raises on a
non-timestamp value); if the file is missing or has no decodable line, a
default of 15 minutes before the current time. -/
def get_last_timestamp (store : List Line) (now : Int) : Except String Int :=
  match firstDecodable store.reverse with
  | some j =>
    match (assocGet j "published").bind Json.asTime with
    | some t => Except.ok t
    | none => Except.error "KeyError"
  | none => Except.ok (now - 15 * 60)

/-- The `target_array` computation of `flatten_target_field`, parameterized
by `loads`, a model of `json.loads` on strings (`none` is a
`JSONDecodeError`): a string `target` is parsed (decode failure gives
`[]`); a list `target` is used directly; anything else (including a
missing `target`) gives `[]`. Iterating a parsed dict yields its keys,
iterating a parsed string yields its one-character strings, and
`enumerate` over a parsed scalar raises an uncaught `TypeError`. -/
def targetArray (loads : String → Option Json) (event : PyDict) :
    Except String (List Json) :=
  match assocGet event "target" with
  | some (Json.str s) =>
    match loads s with
    | none => Except.ok []
    | some (Json.arr l) => Except.ok l
    | some (Json.obj fs) => Except.ok (fs.map (fun kv => Json.str kv.1))
    | some (Json.str s2) => Except.ok (s2.toList.map (fun c => Json.str (String.singleton c)))
    | some _ => Except.error "TypeError"
  | some (Json.arr l) => Except.ok l
  | _ => Except.ok []

/-- The `for i, item in enumerate(target_array)` loop of
`flatten_target_field`: for each dict item, assign
`target_<key>_<i>` for each of its entries; other items are skipped. -/
def flattenTargetLoop (flattened : PyDict) : Nat → List Json → PyDict
  | _, [] => flattened
  | i, Json.obj fs :: rest =>
      flattenTargetLoop
        (fs.foldl (fun a kv => assocSet a ("target_" ++ kv.1 ++ "_" ++ toString i) kv.2)
          flattened) (i + 1) rest
  | i, _ :: rest => flattenTargetLoop flattened (i + 1) rest

/-- `flatten_target_field` of `log-pull-okta.py`: start from a copy of the
event and run the flattening loop over the target array. -/
def flatten_target_field (loads : String → Option Json) (event : PyDict) :
    Except String PyDict :=
  (targetArray loads event).map (flattenTargetLoop event 0)

/-- The keys the `flatten_target_field` loop assigns, given the target
array. -/
def genKeysLoop : Nat → List Json → List String
  | _, [] => []
  | i, Json.obj fs :: rest =>
      fs.map (fun kv => "target_" ++ kv.1 ++ "_" ++ toString i) ++ genKeysLoop (i + 1) rest
  | i, _ :: rest => genKeysLoop (i + 1) rest

/-- All keys assigned by `flatten_target_field` on the given event. -/
def genKeys (loads : String → Option Json) (event : PyDict) : List String :=
  match targetArray loads event with
  | Except.ok l => genKeysLoop 0 l
  | Except.error _ => []

/-- The scan of the existing log file in `write_logs`: collect
`log_entry['published']` of every line that decodes, skipping lines on
which `json.loads` raises; a decoded line without a `published` field
raises an uncaught `KeyError`. -/
def scan_published : List Line → Except String (List Json)
  | [] => Except.ok []
  | Line.bad _ :: rest => scan_published rest
  | Line.entry j :: rest =>
    match assocGet j "published" with
    | none => Except.error "KeyError"
    | some v => (scan_published rest).map (fun ex => v :: ex)

/-- The append loop of `write_logs`: identity key
`event.get('published', '')`, skip when already known, otherwise
serialize `{"source": "okta-events", **event}` (uncaught `TypeError` when
`json.dumps` fails, aborting the loop with the lines written so far
persisted) and append, learning the key. -/
def write_loop (existing : List Json) : List PyDict → List Line → List Line × Option String
  | [], acc => (acc, none)
  | e :: rest, acc =>
    let ts := (assocGet e "published").getD (Json.str "")
    if jmem ts existing then write_loop existing rest acc
    else
      let me := mergeSourceFirst (Json.str "okta-events") e
      if serializableFields me then write_loop (ts :: existing) rest (acc ++ [Line.entry me])
      else (acc, some "TypeError")

/-- `write_logs` of `log-pull-okta.py`: scan the existing store for known
`published` values, then append the new, deduplicated lines; the first
component is the store after the call, the second the uncaught exception
if one was raised. -/
def write_logs (store : List Line) (events : List PyDict) : List Line × Option String :=
  match scan_published store with
  | Except.error e => (store, some e)
  | Except.ok ex =>
    let r := write_loop ex events []
    (store ++ r.1, r.2)

/-- One run of `main()` of `log-pull-okta.py` over the destination store:
load the watermark, fetch events since it (`fetch_events` raises on any
HTTP or request error, modelled by the `fetch` oracle returning
`Except.error`), and if any events came back, flatten and write them. The
first component is the store after the run, the second the uncaught
exception if one was raised. -/
def cycle (loads : String → Option Json) (fetch : Int → Except String (List PyDict))
    (store : List Line) (now : Int) : List Line × Option String :=
  match get_last_timestamp store now with
  | Except.error e => (store, some e)
  | Except.ok start =>
    match fetch start with
    | Except.error e => (store, some e)
    | Except.ok events =>
      if events.isEmpty then (store, none)
      else
        match events.mapM (flatten_target_field loads) with
        | Except.error e => (store, some e)
        | Except.ok flat => write_logs store flat

end Okta

example :
    Okta.flatten_target_field (fun _ => none)
      [("published", Json.num 3),
       ("target", Json.arr [Json.obj [("id", Json.str "u1")], Json.str "noise",
         Json.obj [("id", Json.str "u2")]])]
    = Except.ok
      [("published", Json.num 3),
       ("target", Json.arr [Json.obj [("id", Json.str "u1")], Json.str "noise",
         Json.obj [("id", Json.str "u2")]]),
       ("target_id_0", Json.str "u1"),
       ("target_id_2", Json.str "u2")] := rfl

/-- Python `max` over a nonempty list of ints (`none` for the empty list,
matching the `if timestamps else None` guard around `max`). -/
def listMax : List Int → Option Int
  | [] => none
  | x :: xs => some (xs.foldl max x)

namespace GW

/-- One response of the Admin SDK Reports `activities().list` call: the
decoded result with its `items` and optional `nextPageToken`, or an
`HttpError`. -/
inductive Resp where
  | ok (items : List PyDict) (nextPageToken : Option String)
  | err (msg : String)

/-- `fetch_and_log_events` of `log-pull-gw.py`: the `while True` pagination
loop. The server is an oracle from the `startTime` bound (`none` when no
prior timestamp exists, in which case the query is unbounded) and the
request index (abstracting the opaque `pageToken` chain) to the response.
The loop breaks on an empty `items` list, on a missing `nextPageToken`,
and on `HttpError` — in the error case *keeping* the pages accumulated so
far. `fuel` bounds the unbounded loop; `none` means it did not finish
within `fuel` requests. -/
def fetch_and_log_events (server : Option Int → Nat → Resp) (startTime : Option Int) :
    Nat → Nat → List PyDict → Option (List PyDict)
  | 0, _, _ => none
  | fuel + 1, k, logs =>
    match server startTime k with
    | Resp.err _ => some logs
    | Resp.ok items tok =>
      if items.isEmpty then some logs
      else
        match tok with
        | none => some (logs ++ items)
        | some _ => fetch_and_log_events server startTime fuel (k + 1) (logs ++ items)

/-- The timestamp `log['id']['time']` of one log, parsed
(`datetime.fromisoformat` after stripping the `Z`): `none` when a step
raises (`KeyError`/`TypeError`/`ValueError`). -/
def log_time (log : PyDict) : Option Int :=
  match assocGet log "id" with
  | some (Json.obj idf) => (assocGet idf "time").bind Json.asTime
  | _ => none

/-- `get_latest_timestamp` of `log-pull-gw.py`: parse
`log['id']['time']` for every log (an uncaught exception when missing or
not a timestamp) and return the maximum, or `None` for an empty list. -/
def get_latest_timestamp (logs : List PyDict) : Except String (Option Int) :=
  match logs.mapM log_time with
  | none => Except.error "KeyError"
  | some ts => Except.ok (listMax ts)

/-- `load_last_timestamps` of `log-pull-gw.py`: the decoded timestamps file
(a map from event type to a timestamp or `null`), or the empty dict when
the file does not exist. -/
def load_last_timestamps (file : Option (List (String × Option Int))) :
    List (String × Option Int) :=
  match file with
  | some data => data
  | none => []

/-- The start bound `main()` passes to `fetch_and_log_events` for an event
type: `last_timestamps.get(event_type)`, which is `None` when the loaded
map has no entry for the type (and also when the stored value is
`null`). -/
def last_timestamp_for (file : Option (List (String × Option Int))) (etype : String) :
    Option Int :=
  match assocGet (load_last_timestamps file) etype with
  | some v => v
  | none => none

/-- `save_logs_to_file` of `log-pull-gw.py`: append every log, flattened by
`flatten_json` and merged under a leading `source` field, with no
duplicate check. `json.dump` streams into the file, so a `TypeError` on an
unserializable value leaves a truncated, undecodable line and aborts the
run (lines written before it persist). -/
def save_logs_to_file : List PyDict → List Line → List Line × Option String
  | [], store => (store, none)
  | log :: rest, store =>
    let rcd := mergeSourceFirst (Json.str "google-workspace") (flatten_json (Json.obj log))
    if serializableFields rcd then save_logs_to_file rest (store ++ [Line.entry rcd])
    else (store ++ [Line.bad "truncated"], some "TypeError")

/-- One iteration of the `for event_type in event_types` loop of `main()`
in `log-pull-gw.py`: fetch with the event type's last timestamp as the
start bound, and if any logs came back, set the in-memory timestamp for
the type to `get_latest_timestamp(logs)` and append the logs to the store.
The result carries the (possibly advanced) timestamp for the type, the
store after the iteration, and the uncaught exception if one was raised
(when it is `none`, `main()` goes on to persist the updated timestamps
with `save_last_timestamps`). -/
def cycle_for_type (server : Option Int → Nat → Resp) (fuel : Nat) (lastTs : Option Int)
    (store : List Line) : (Option Int × List Line) × Option String :=
  match fetch_and_log_events server lastTs fuel 0 [] with
  | none => ((lastTs, store), some "fuel")
  | some logs =>
    if logs.isEmpty then ((lastTs, store), none)
    else
      match get_latest_timestamp logs with
      | Except.error e => ((lastTs, store), some e)
      | Except.ok ts =>
        let r := save_logs_to_file logs store
        ((ts, r.1), r.2)

end GW

/-- A server oracle for `log-pull-gw.py` that returns one event on the
first request and an `HttpError` on every later request (a transport
failure in the middle of the pagination loop). -/
def c2Server : Option Int → Nat → GW.Resp := fun _ k =>
  if k = 0 then GW.Resp.ok [[("id", Json.obj [("time", Json.num 100)])]] (some "tok")
  else GW.Resp.err "HttpError 500"

/-- C1 counterexample: the Google Workspace write path
(`save_logs_to_file`) does no identity-key check at all — appending the
same fetched event in two successive runs stores two records for it, so
the claim's "exactly one record for every event fetched twice" fails for
this source's writer. -/
theorem c1_counterexample_gw_duplicate_append :
    (GW.save_logs_to_file [[("id", Json.obj [("time", Json.num 100)])]]
      ((GW.save_logs_to_file [[("id", Json.obj [("time", Json.num 100)])]] []).1)).1
    = [Line.entry [("source", Json.str "google-workspace"), ("id_time", Json.num 100)],
       Line.entry [("source", Json.str "google-workspace"), ("id_time", Json.num 100)]] := rfl

/-- C2 counterexample: in `log-pull-gw.py`, an `HttpError` on the second
page of a cycle only breaks the pagination loop; the page fetched before
the failure is still written and the event type's watermark advances from
its prior value 50 to 100, the partial page's timestamp — so the
watermark is not left unchanged by a transport error. -/
theorem c2_counterexample_gw_partial_advance :
    GW.cycle_for_type c2Server 5 (some 50) []
      = ((some 100,
          [Line.entry [("source", Json.str "google-workspace"), ("id_time", Json.num 100)]]),
         none)
    ∧ (some 100 : Option Int) ≠ some 50 := ⟨rfl, by decide⟩

/-- C3 counterexample: the GitLab flattener copies the event (keeping the
nested `details` mapping itself) and copies `details` values verbatim, so
a `details` entry whose value is itself a mapping yields an output value
that is a mapping — flattening is neither total over nesting levels nor
scalar-valued for this source. -/
theorem c3_counterexample_gitlab_nested_value :
    valsScalar (Gitlab.flatten_details_field
      [("details", Json.obj [("custom", Json.obj [("a", Json.num 1)])])]) = false := rfl

/-- C3 (amended): the Google Workspace `flatten_json` does have the claimed
property — it recurses through every level of nested mappings and
sequences and every value of its result is a scalar. -/
theorem c3_amended_gw_flatten_scalar (y : Json) : valsScalar (GW.flatten_json y) = true :=
  GW.flatten_valsScalar y "" [] rfl

/-- C5 counterexample: the Okta store-derived watermark after a write is
the `published` of the last-written line, not the maximum fetched
timestamp: writing events with timestamps 5 then 3 leaves a watermark of
3 while the maximum of the fetched set is 5. -/
theorem c5_counterexample_okta_last_written_not_max :
    (Okta.write_logs [] [[("published", Json.num 5)], [("published", Json.num 3)]]).1
      = [Line.entry [("source", Json.str "okta-events"), ("published", Json.num 5)],
         Line.entry [("source", Json.str "okta-events"), ("published", Json.num 3)]]
    ∧ Okta.get_last_timestamp
        (Okta.write_logs [] [[("published", Json.num 5)], [("published", Json.num 3)]]).1 0
      = Except.ok 3
    ∧ listMax [5, 3] = some 5
    ∧ (3 : Int) ≠ 5 := ⟨rfl, rfl, rfl, by decide⟩

/-- C6 counterexample: `load_last_timestamps` in `log-pull-gw.py` returns
the empty map when no timestamps file exists, so the start bound
`main()` passes for an event type on a first run is `None` — an absent,
unbounded start bound, not a fixed lookback default. -/
theorem c6_counterexample_gw_absent_start_bound :
    GW.load_last_timestamps none = [] ∧ GW.last_timestamp_for none "admin" = none := ⟨rfl, rfl⟩

/-- C6 (amended): GitLab and Okta do return fixed source-specific lookback
defaults (5 hours and 15 minutes before now) when the log file is missing
or has no decodable line, but Google Workspace returns an empty map when
its timestamps file is absent, leaving every event type's first fetch
with no start bound at all. -/
theorem c6_amended_defaults (now : Int) (s : String) :
    Gitlab.get_last_timestamp [] now = Except.ok (now - 5 * 3600)
    ∧ Gitlab.get_last_timestamp [Line.bad s] now = Except.ok (now - 5 * 3600)
    ∧ Okta.get_last_timestamp [] now = Except.ok (now - 15 * 60)
    ∧ Okta.get_last_timestamp [Line.bad s] now = Except.ok (now - 15 * 60)
    ∧ (∀ etype : String, GW.last_timestamp_for none etype = none) :=
  ⟨rfl, rfl, rfl, rfl, fun _ => rfl⟩

/-- C7 counterexample: in the GitLab writer a `json.dumps` failure is not
caught: with a batch of a serializable event, an unserializable one, and
another serializable one, only the first is written and the call raises
`TypeError` — the remaining event of the batch is not processed, contrary
to the claim that serialization failures are logged, skipped, and the
rest of the batch written. -/
theorem c7_counterexample_gitlab_batch_aborts :
    Gitlab.write_logs [] [[("id", Json.num 1)],
        [("id", Json.num 2), ("x", Json.pyobj 0)],
        [("id", Json.num 3)]]
      = ([Line.entry [("source", Json.str "gitlab-events"), ("id", Json.num 1)]],
         some "TypeError") := rfl

/-- C8: the two components of one `get_logs_shared` call are its returned
list and the state of the module-shared default `results` list (CPython
evaluates the `results=[]` default once, so calls omitting the argument
share and mutate one list). A first call accumulating one event leaves
that event in the shared default, and a second call omitting `results`
returns the first call's event in addition to its own. -/
theorem c8_shared_default_results_leaks :
    (Gitlab.get_logs_shared (fun _ => Gitlab.Resp.ok [[("id", Json.num 1)]] 1 1) 1 [] 5).1
      = some [[("id", Json.num 1)]]
    ∧ (Gitlab.get_logs_shared (fun _ => Gitlab.Resp.ok [[("id", Json.num 2)]] 1 1) 1
        ((Gitlab.get_logs_shared (fun _ => Gitlab.Resp.ok [[("id", Json.num 1)]] 1 1) 1 [] 5).2)
        5).1
      = some [[("id", Json.num 1)], [("id", Json.num 2)]] := ⟨rfl, rfl⟩

/-- C9 counterexample: the GitLab flattener can overwrite a pre-existing
field: an event that already has a `details_foo` field and a `details`
dict with a `foo` entry gets its original `details_foo` value replaced by
the `details` entry's value — so not every input key keeps its original
value. -/
theorem c9_counterexample_gitlab_collision_overwrite :
    assocGet [("details_foo", Json.num 1), ("details", Json.obj [("foo", Json.num 2)])]
        "details_foo" = some (Json.num 1)
    ∧ assocGet (Gitlab.flatten_details_field
        [("details_foo", Json.num 1), ("details", Json.obj [("foo", Json.num 2)])])
        "details_foo" = some (Json.num 2) := ⟨rfl, rfl⟩

/-- C10 counterexample: after one record without a `published` field is in
the Okta store, a later `write_logs` call is not a silent duplicate-skip:
the scan of the existing store evaluates `log_entry['published']` on that
record and raises an uncaught `KeyError`, aborting the call before
anything is appended. -/
theorem c10_counterexample_okta_keyerror_on_rescan :
    Okta.write_logs [] [[("x", Json.num 1)]]
      = ([Line.entry [("source", Json.str "okta-events"), ("x", Json.num 1)]], none)
    ∧ Okta.write_logs [Line.entry [("source", Json.str "okta-events"), ("x", Json.num 1)]]
        [[("x", Json.num 1)]]
      = ([Line.entry [("source", Json.str "okta-events"), ("x", Json.num 1)]],
         some "KeyError") := ⟨rfl, rfl⟩

/-- A one-event page body for exercising the pagination loops. -/
def pageEvent : PyDict := [("id", Json.num 0)]

/-- A GitLab server oracle whose responses report `x-total-pages = T` and
carry one event per page. -/
def gitlabPagedServer (T : Nat) : Nat → Gitlab.Resp :=
  fun q => Gitlab.Resp.ok [pageEvent] T q

/-- Against a server reporting `T` total pages, `get_logs` follows the
page counter through all `T` pages (one fetch per page) and returns the
concatenation, given enough fuel — there is no page-count guard anywhere
in the recursion. -/
theorem gitlab_get_logs_all_pages (T : Nat) :
    ∀ (fuel page : Nat) (acc : List PyDict), 1 ≤ page → page ≤ T → T - page < fuel →
    Gitlab.get_logs_shared (gitlabPagedServer T) page acc fuel
      = (some (acc ++ List.replicate (T + 1 - page) pageEvent),
         acc ++ List.replicate (T + 1 - page) pageEvent) := by
  intro fuel
  induction fuel with
  | zero => intro page acc h1 h2 h3; omega
  | succ f ih =>
      intro page acc h1 h2 h3
      simp only [Gitlab.get_logs_shared, gitlabPagedServer]
      have hne : ([pageEvent] : List PyDict).isEmpty = false := rfl
      rw [hne]
      by_cases hlt : page < T
      · simp only [Bool.false_eq_true, if_false, if_pos hlt]
        rw [ih (page + 1) (acc ++ [pageEvent]) (by omega) (by omega) (by omega)]
        have hrep : T + 1 - page = (T - page) + 1 := by omega
        have hrep2 : T + 1 - (page + 1) = T - page := by omega
        rw [hrep, hrep2, List.replicate_succ]
        simp
      · simp only [Bool.false_eq_true, if_false, if_neg hlt]
        have : T + 1 - page = 1 := by omega
        rw [this]
        simp

/-- A Google Workspace server oracle that keeps returning a
`nextPageToken` for the first `T - 1` requests and one event per page. -/
def gwTokenServer (T : Nat) : Option Int → Nat → GW.Resp :=
  fun _ k =>
    if k + 1 < T then GW.Resp.ok [pageEvent] (some "t") else GW.Resp.ok [pageEvent] none

/-- Against a server with a `T`-long token chain, `fetch_and_log_events`
follows all `T` tokens and returns the concatenation, given enough fuel —
the `while True` loop has no page-count guard either. -/
theorem gw_fetch_all_pages (T : Nat) :
    ∀ (fuel k : Nat) (logs : List PyDict), k < T → T - k ≤ fuel →
    GW.fetch_and_log_events (gwTokenServer T) none fuel k logs
      = some (logs ++ List.replicate (T - k) pageEvent) := by
  intro fuel
  induction fuel with
  | zero => intro k logs h1 h2; omega
  | succ f ih =>
      intro k logs h1 h2
      simp only [GW.fetch_and_log_events, gwTokenServer]
      by_cases hk : k + 1 < T
      · rw [if_pos hk]
        have hne : ([pageEvent] : List PyDict).isEmpty = false := rfl
        simp only [hne, Bool.false_eq_true, if_false]
        rw [ih (k + 1) (logs ++ [pageEvent]) (by omega) (by omega)]
        have hrep : T - k = (T - (k + 1)) + 1 := by omega
        rw [hrep, List.replicate_succ]
        simp
      · rw [if_neg hk]
        have hne : ([pageEvent] : List PyDict).isEmpty = false := rfl
        simp only [hne, Bool.false_eq_true, if_false]
        have : T - k = 1 := by omega
        rw [this]
        simp

/-- C4: the claim restates the design requirement of a defensive maximum
page count, and the code has none — this theorem evaluates the code on
the failing inputs: for every `N`, the GitLab loop follows a server
reporting `N + 1` total pages through all of them (more than any claimed
bound `N`) and completes normally rather than fatally, and the Google
Workspace loop likewise follows an `N + 1`-long `nextPageToken` chain to
its end — termination comes only from the server's own last-page /
missing-token / empty-page signals (or a transport error), never from a
page-count guard. -/
theorem c4_unbounded_pagination_runs (N : Nat) :
    Gitlab.get_logs (gitlabPagedServer (N + 1)) 1 [] (N + 2)
      = some (List.replicate (N + 1) pageEvent)
    ∧ GW.fetch_and_log_events (gwTokenServer (N + 1)) none (N + 2) 0 []
      = some (List.replicate (N + 1) pageEvent) := by
  constructor
  · show (Gitlab.get_logs_shared (gitlabPagedServer (N + 1)) 1 [] (N + 2)).1 = _
    rw [gitlab_get_logs_all_pages (N + 1) (N + 2) 1 [] (by omega) (by omega) (by omega)]
    simp
  · rw [gw_fetch_all_pages (N + 1) (N + 2) 0 [] (by omega) (by omega)]
    simp

/-- When the GitLab server answers every page `1..P-1` with a 200, a
nonempty body and headers announcing further pages, and answers page `P`
with a non-200, `get_logs` either runs out of fuel or returns `[]`: the
pages accumulated before the mid-pagination failure are discarded from
the returned value (the recursion's non-200 branch returns `[]`, not
`results`). -/
theorem gitlab_get_logs_err_mid (server : Nat → Gitlab.Resp) (P : Nat)
    (herr : (server P).isErr = true)
    (hgood : ∀ q, 1 ≤ q → q < P →
      ∃ data tp, server q = Gitlab.Resp.ok data tp q ∧ data.isEmpty = false ∧ q < tp) :
    ∀ (fuel page : Nat) (acc : List PyDict), 1 ≤ page → page ≤ P →
      Gitlab.get_logs server page acc fuel = none
      ∨ Gitlab.get_logs server page acc fuel = some [] := by
  intro fuel
  induction fuel with
  | zero => intro page acc h1 h2; left; rfl
  | succ f ih =>
      intro page acc h1 h2
      by_cases hPeq : page = P
      · right
        unfold Gitlab.get_logs Gitlab.get_logs_shared
        cases hs : server page with
        | ok data tp cp =>
            rw [← hPeq] at herr
            rw [hs] at herr
            simp [Gitlab.Resp.isErr] at herr
        | err st tx => rfl
      · obtain ⟨data, tp, hq, hne, hlt⟩ := hgood page h1 (by omega)
        have hih := ih (page + 1) (acc ++ data) (by omega) (by omega)
        unfold Gitlab.get_logs Gitlab.get_logs_shared
        rw [hq]
        simp only [hne, Bool.false_eq_true, if_false, if_pos hlt]
        exact hih

/-- C2 (amended): for GitLab and Okta a transport failure — on the first
page or in the middle of pagination, after earlier pages already
succeeded — leaves the destination store, and hence the store-derived
watermark, exactly as it was: a non-200 response at page `P` makes
`get_logs` return `[]` (discarding the earlier pages), so the GitLab run
writes nothing, and an Okta `fetch_events` exception propagates before
any write. (For Google Workspace the claim fails: see the
counterexample — the partially fetched pages are written and the
watermark advances to their maximum timestamp.) -/
theorem c2_amended_gitlab_okta_preserve_watermark
    (server : Int → Nat → Gitlab.Resp) (P fuel : Nat) (store : List Line) (now : Int)
    (hP : 1 ≤ P)
    (herr : ∀ w, (server w P).isErr = true)
    (hgood : ∀ w q, 1 ≤ q → q < P →
      ∃ data tp, server w q = Gitlab.Resp.ok data tp q ∧ data.isEmpty = false ∧ q < tp)
    (loads : String → Option Json) (fetch : Int → Except String (List PyDict))
    (store2 : List Line) (now2 : Int)
    (hfetch : ∀ s, ∃ msg, fetch s = Except.error msg) :
    (∀ (w : Int) (fuel2 : Nat), Gitlab.get_logs (server w) 1 [] fuel2 = none
       ∨ Gitlab.get_logs (server w) 1 [] fuel2 = some [])
    ∧ (Gitlab.cycle server fuel store now).1 = store
    ∧ Gitlab.get_last_timestamp (Gitlab.cycle server fuel store now).1 now
        = Gitlab.get_last_timestamp store now
    ∧ (Okta.cycle loads fetch store2 now2).1 = store2
    ∧ Okta.get_last_timestamp (Okta.cycle loads fetch store2 now2).1 now2
        = Okta.get_last_timestamp store2 now2 := by
  have hlogs : ∀ (w : Int) (fuel2 : Nat), Gitlab.get_logs (server w) 1 [] fuel2 = none
      ∨ Gitlab.get_logs (server w) 1 [] fuel2 = some [] := fun w fuel2 =>
    gitlab_get_logs_err_mid (server w) P (herr w) (hgood w) fuel2 1 [] (by omega) hP
  have hg : (Gitlab.cycle server fuel store now).1 = store := by
    cases hw : Gitlab.get_last_timestamp store now with
    | error e => simp [Gitlab.cycle, hw]
    | ok wm =>
        rcases hlogs wm fuel with hnone | hnil
        · simp [Gitlab.cycle, hw, hnone]
        · simp [Gitlab.cycle, hw, hnil]
  have ho : (Okta.cycle loads fetch store2 now2).1 = store2 := by
    unfold Okta.cycle
    cases hw : Okta.get_last_timestamp store2 now2 with
    | error e => rfl
    | ok start =>
        obtain ⟨msg, hm⟩ := hfetch start
        simp [hm]
  exact ⟨hlogs, hg, by rw [hg], ho, by rw [ho]⟩

/-- A GitLab server oracle for the amended C2's witness: page 1 succeeds
with one event and further pages announced, page 2 (and beyond) fails
with a non-200 — a transport failure in the middle of pagination. -/
def c2WitnessServer : Int → Nat → Gitlab.Resp := fun _ q =>
  if q = 1 then Gitlab.Resp.ok [[("id", Json.num 1)]] 2 1 else Gitlab.Resp.err 500 "boom"

/-- Witness for the amended C2: against `c2WitnessServer` the mid-cycle
failure discards page 1's event (`get_logs` yields `[]`) and both cycles
leave their empty stores unchanged. -/
theorem c2_amended_witness :
    (Gitlab.get_logs (c2WitnessServer 0) 1 [] 5 = none
      ∨ Gitlab.get_logs (c2WitnessServer 0) 1 [] 5 = some [])
    ∧ (Gitlab.cycle c2WitnessServer 5 [] 0).1 = ([] : List Line)
    ∧ (Okta.cycle (fun _ => none) (fun _ => Except.error "RequestException") [] 0).1
      = ([] : List Line) := by
  have h := c2_amended_gitlab_okta_preserve_watermark c2WitnessServer 2 5 [] 0 (by omega)
    (fun w => rfl)
    (fun w q h1 h2 => by
      have hq : q = 1 := by omega
      subst hq
      exact ⟨[[("id", Json.num 1)]], 2, rfl, rfl, by omega⟩)
    (fun _ => none) (fun _ => Except.error "RequestException") [] 0
    (fun _ => ⟨"RequestException", rfl⟩)
  exact ⟨h.1 0 5, h.2.1, h.2.2.2.1⟩

/-- The fold of `max` returns either its initial value or a list element. -/
theorem foldl_max_is_mem (xs : List Int) (x : Int) :
    xs.foldl max x = x ∨ xs.foldl max x ∈ xs := by
  induction xs generalizing x with
  | nil => left; rfl
  | cons y ys ih =>
      simp only [List.foldl_cons]
      rcases ih (max x y) with h | h
      · rcases max_choice x y with hm | hm
        · left; rw [h, hm]
        · right; rw [h, hm]; exact List.mem_cons_self y ys
      · right; exact List.mem_cons_of_mem y h

/-- The fold of `max` bounds its initial value and every list element. -/
theorem le_foldl_max (xs : List Int) (x : Int) :
    x ≤ xs.foldl max x ∧ ∀ u ∈ xs, u ≤ xs.foldl max x := by
  induction xs generalizing x with
  | nil => exact ⟨le_refl x, by intro u hu; cases hu⟩
  | cons y ys ih =>
      simp only [List.foldl_cons]
      obtain ⟨h1, h2⟩ := ih (max x y)
      refine ⟨le_trans (le_max_left x y) h1, ?_⟩
      intro u hu
      rcases List.mem_cons.mp hu with rfl | hu
      · exact le_trans (le_max_right x u) h1
      · exact h2 u hu

/-- C5 (amended): Google Workspace really does advance to the maximum
observed event timestamp — `get_latest_timestamp` returns a member of the
parsed timestamps that bounds them all. GitLab and Okta, however, derive
the next cycle's watermark from the *last-written* line of the log file:
appending a line makes the loaded watermark that line's own
`published` / `created_at`, irrespective of the maximum fetched
timestamp (see the counterexample for the resulting regression). -/
theorem c5_amended_max_vs_last_written
    (logs : List PyDict) (t0 : Int) (ts : List Int)
    (hts : logs.mapM GW.log_time = some (t0 :: ts))
    (store : List Line) (j : PyDict) (v : Json) (t now : Int)
    (hpub : assocGet j "published" = some v) (hvt : v.asTime = some t)
    (store2 : List Line) (j2 : PyDict) (v2 : Json) (t2 now2 : Int)
    (hca : assocGet j2 "created_at" = some v2) (hvt2 : v2.asTime = some t2) :
    (∃ m, GW.get_latest_timestamp logs = Except.ok (some m)
       ∧ m ∈ t0 :: ts ∧ ∀ u ∈ t0 :: ts, u ≤ m)
    ∧ Okta.get_last_timestamp (store ++ [Line.entry j]) now = Except.ok t
    ∧ Gitlab.get_last_timestamp (store2 ++ [Line.entry j2]) now2 = Except.ok t2 := by
  refine ⟨⟨ts.foldl max t0, ?_, ?_, ?_⟩, ?_, ?_⟩
  · unfold GW.get_latest_timestamp
    rw [hts]
    rfl
  · rcases foldl_max_is_mem ts t0 with h | h
    · rw [h]; exact List.mem_cons_self t0 ts
    · exact List.mem_cons_of_mem t0 h
  · intro u hu
    obtain ⟨h1, h2⟩ := le_foldl_max ts t0
    rcases List.mem_cons.mp hu with rfl | hu
    · exact h1
    · exact h2 u hu
  · have hrev : (store ++ [Line.entry j]).reverse = Line.entry j :: store.reverse := by
      simp
    simp [Okta.get_last_timestamp, hrev, firstDecodable, hpub, hvt]
  · have hrev : (store2 ++ [Line.entry j2]).reverse = Line.entry j2 :: store2.reverse := by
      simp
    simp [Gitlab.get_last_timestamp, hrev, firstDecodable, hca, hvt2]

/-- Witness for the amended C5 at concrete logs with timestamps 100 and
40 and concrete single-line appends. -/
theorem c5_amended_witness :
    (∃ m, GW.get_latest_timestamp [[("id", Json.obj [("time", Json.num 100)])],
        [("id", Json.obj [("time", Json.num 40)])]] = Except.ok (some m)
      ∧ m ∈ [(100 : Int), 40] ∧ ∀ u ∈ [(100 : Int), 40], u ≤ m)
    ∧ Okta.get_last_timestamp ([] ++ [Line.entry [("published", Json.num 3)]]) 0 = Except.ok 3
    ∧ Gitlab.get_last_timestamp ([] ++ [Line.entry [("created_at", Json.num 4)]]) 0
      = Except.ok 4 :=
  c5_amended_max_vs_last_written
    [[("id", Json.obj [("time", Json.num 100)])], [("id", Json.obj [("time", Json.num 40)])]]
    100 [40] rfl
    [] [("published", Json.num 3)] (Json.num 3) 3 0 rfl rfl
    [] [("created_at", Json.num 4)] (Json.num 4) 4 0 rfl rfl

/-- C1 (amended): the GitLab and Okta writers do implement the claimed
dedup-on-append: writing an event into an empty store appends exactly one
record for it, and writing the same event again — after the writer
re-loads the identity keys (`id` / `published`) from the store — appends
nothing, leaving exactly one record. (The Google Workspace writer has no
identity-key check and appends a second record: see the
counterexample.) -/
theorem c1_amended_dedup_gitlab_okta
    (e : PyDict) (k : Json)
    (hnd : (e.map Prod.fst).Nodup)
    (hk : assocGet e "id" = some k)
    (hser : serializableFields (mergeSourceFirst (Json.str "gitlab-events") e) = true)
    (e2 : PyDict) (p : Json)
    (hnd2 : (e2.map Prod.fst).Nodup)
    (hp : assocGet e2 "published" = some p)
    (hser2 : serializableFields (mergeSourceFirst (Json.str "okta-events") e2) = true) :
    (Gitlab.write_logs [] [e]
        = ([Line.entry (mergeSourceFirst (Json.str "gitlab-events") e)], none)
      ∧ Gitlab.write_logs [Line.entry (mergeSourceFirst (Json.str "gitlab-events") e)] [e]
        = ([Line.entry (mergeSourceFirst (Json.str "gitlab-events") e)], none))
    ∧ (Okta.write_logs [] [e2]
        = ([Line.entry (mergeSourceFirst (Json.str "okta-events") e2)], none)
      ∧ Okta.write_logs [Line.entry (mergeSourceFirst (Json.str "okta-events") e2)] [e2]
        = ([Line.entry (mergeSourceFirst (Json.str "okta-events") e2)], none)) := by
  have hmg : assocGet (mergeSourceFirst (Json.str "gitlab-events") e) "id" = some k :=
    assocGet_foldl_assocSet_of_mem e [("source", Json.str "gitlab-events")] "id" k hnd hk
  have hmo : assocGet (mergeSourceFirst (Json.str "okta-events") e2) "published" = some p :=
    assocGet_foldl_assocSet_of_mem e2 [("source", Json.str "okta-events")] "published" p hnd2 hp
  refine ⟨⟨?_, ?_⟩, ?_, ?_⟩
  · simp [Gitlab.write_logs, Gitlab.scan_ids, Gitlab.write_loop, hk, jmem, hser]
  · simp [Gitlab.write_logs, Gitlab.scan_ids, Gitlab.write_loop, hmg, hk, jmem_cons_self,
      Except.map]
  · simp [Okta.write_logs, Okta.scan_published, Okta.write_loop, hp, jmem, hser2]
  · simp [Okta.write_logs, Okta.scan_published, Okta.write_loop, hmo, hp, jmem_cons_self,
      Except.map]

/-- Witness for the amended C1 at concrete one-field events. -/
theorem c1_amended_witness :
    (Gitlab.write_logs [] [[("id", Json.num 7)]]
        = ([Line.entry [("source", Json.str "gitlab-events"), ("id", Json.num 7)]], none)
      ∧ Gitlab.write_logs [Line.entry [("source", Json.str "gitlab-events"), ("id", Json.num 7)]]
          [[("id", Json.num 7)]]
        = ([Line.entry [("source", Json.str "gitlab-events"), ("id", Json.num 7)]], none))
    ∧ (Okta.write_logs [] [[("published", Json.num 8)]]
        = ([Line.entry [("source", Json.str "okta-events"), ("published", Json.num 8)]], none)
      ∧ Okta.write_logs
          [Line.entry [("source", Json.str "okta-events"), ("published", Json.num 8)]]
          [[("published", Json.num 8)]]
        = ([Line.entry [("source", Json.str "okta-events"), ("published", Json.num 8)]],
           none)) :=
  c1_amended_dedup_gitlab_okta [("id", Json.num 7)] (Json.num 7) (by simp) rfl rfl
    [("published", Json.num 8)] (Json.num 8) (by simp) rfl rfl

/-- C7 (amended): a `json.dumps` failure is an uncaught `TypeError` in
every writer: events written earlier in the batch persist in the store,
the failing event and every later event of the batch are dropped — the
batch aborts instead of the claim's log-and-skip. In the GitLab and Okta
writers the failing line is never written at all (serialization completes
before `file.write`, so no partial line appears); the Google Workspace
writer streams with `json.dump` and additionally leaves a truncated,
undecodable line for the failing event. -/
theorem c7_amended_serialization_aborts_batch
    (store : List Line) (ex : List Json) (good badEv : PyDict) (rest : List PyDict)
    (k1 k2 : Json)
    (hscan : Gitlab.scan_ids store = Except.ok ex)
    (hk1 : assocGet good "id" = some k1) (hm1 : jmem k1 ex = false)
    (hser1 : serializableFields (mergeSourceFirst (Json.str "gitlab-events") good) = true)
    (hk2 : assocGet badEv "id" = some k2) (hm2 : jmem k2 (k1 :: ex) = false)
    (hser2 : serializableFields (mergeSourceFirst (Json.str "gitlab-events") badEv) = false)
    (store2 : List Line) (ex2 : List Json) (good2 bad2 : PyDict) (rest2 : List PyDict)
    (hscan2 : Okta.scan_published store2 = Except.ok ex2)
    (hm3 : jmem ((assocGet good2 "published").getD (Json.str "")) ex2 = false)
    (hser3 : serializableFields (mergeSourceFirst (Json.str "okta-events") good2) = true)
    (hm4 : jmem ((assocGet bad2 "published").getD (Json.str ""))
        (((assocGet good2 "published").getD (Json.str "")) :: ex2) = false)
    (hser4 : serializableFields (mergeSourceFirst (Json.str "okta-events") bad2) = false)
    (store3 : List Line) (good3 bad3 : PyDict) (rest3 : List PyDict)
    (hser5 : serializableFields (mergeSourceFirst (Json.str "google-workspace")
        (GW.flatten_json (Json.obj good3))) = true)
    (hser6 : serializableFields (mergeSourceFirst (Json.str "google-workspace")
        (GW.flatten_json (Json.obj bad3))) = false) :
    Gitlab.write_logs store (good :: badEv :: rest)
      = (store ++ [Line.entry (mergeSourceFirst (Json.str "gitlab-events") good)],
         some "TypeError")
    ∧ Okta.write_logs store2 (good2 :: bad2 :: rest2)
      = (store2 ++ [Line.entry (mergeSourceFirst (Json.str "okta-events") good2)],
         some "TypeError")
    ∧ GW.save_logs_to_file (good3 :: bad3 :: rest3) store3
      = (store3 ++ [Line.entry (mergeSourceFirst (Json.str "google-workspace")
            (GW.flatten_json (Json.obj good3))), Line.bad "truncated"],
         some "TypeError") := by
  refine ⟨?_, ?_, ?_⟩
  · simp [Gitlab.write_logs, hscan, Gitlab.write_loop, hk1, hm1, hser1, hk2, hm2, hser2]
  · simp [Okta.write_logs, hscan2, Okta.write_loop, hm3, hser3, hm4, hser4]
  · simp [GW.save_logs_to_file, hser5, hser6]

/-- Witness for the amended C7: in each writer a serializable event, then
an unserializable one, then one more event that is never reached. -/
theorem c7_amended_witness :
    Gitlab.write_logs [Line.bad "garbled"]
        [[("id", Json.str "a")], [("id", Json.str "b"), ("y", Json.pyobj 7)],
         [("id", Json.str "c")]]
      = ([Line.bad "garbled",
          Line.entry [("source", Json.str "gitlab-events"), ("id", Json.str "a")]],
         some "TypeError")
    ∧ Okta.write_logs [] [[("published", Json.num 1)],
        [("published", Json.num 2), ("y", Json.pyobj 1)], [("published", Json.num 3)]]
      = ([Line.entry [("source", Json.str "okta-events"), ("published", Json.num 1)]],
         some "TypeError")
    ∧ GW.save_logs_to_file
        [[("a", Json.num 1)], [("b", Json.pyobj 2)], [("c", Json.num 3)]] []
      = ([Line.entry [("source", Json.str "google-workspace"), ("a", Json.num 1)],
          Line.bad "truncated"], some "TypeError") :=
  c7_amended_serialization_aborts_batch [Line.bad "garbled"] [] [("id", Json.str "a")]
    [("id", Json.str "b"), ("y", Json.pyobj 7)] [[("id", Json.str "c")]]
    (Json.str "a") (Json.str "b") rfl rfl rfl rfl rfl rfl rfl
    [] [] [("published", Json.num 1)] [("published", Json.num 2), ("y", Json.pyobj 1)]
    [[("published", Json.num 3)]] rfl rfl rfl rfl rfl
    [] [("a", Json.num 1)] [("b", Json.pyobj 2)] [[("c", Json.num 3)]] rfl rfl

/-- Once a record without a `published` field sits anywhere in the store,
the Okta writer's scan of the existing file raises `KeyError`. -/
theorem okta_scan_error_of_missing_published (j : PyDict)
    (hj : assocGet j "published" = none) (suf : List Line) :
    ∀ pre : List Line,
      Okta.scan_published (pre ++ Line.entry j :: suf) = Except.error "KeyError" := by
  intro pre
  induction pre with
  | nil => simp [Okta.scan_published, hj]
  | cons hd tl ih =>
      cases hd with
      | bad s => simpa [Okta.scan_published] using ih
      | entry j2 =>
          have hstep : Okta.scan_published ((Line.entry j2 :: tl) ++ Line.entry j :: suf)
              = match assocGet j2 "published" with
                | none => Except.error "KeyError"
                | some v =>
                    (Okta.scan_published (tl ++ Line.entry j :: suf)).map
                      (fun ex => v :: ex) := rfl
          rw [hstep]
          cases hq : assocGet j2 "published" with
          | none => rfl
          | some v => rw [ih]; rfl

/-- C10 (amended): within one `write_logs` call the claim's behavior does
hold — two events without a `published` field share the empty-string
identity key, so only the first is appended and the second is silently
skipped. But across calls it does not: any call against a store that
already contains a record without `published` raises `KeyError` while
scanning the store and appends nothing, instead of silently skipping
duplicates. -/
theorem c10_amended_empty_key_then_keyerror (e1 e2 : PyDict)
    (h1 : assocGet e1 "published" = none) (h2 : assocGet e2 "published" = none)
    (hs1 : serializableFields (mergeSourceFirst (Json.str "okta-events") e1) = true)
    (pre suf : List Line) (j : PyDict) (evs : List PyDict)
    (hj : assocGet j "published" = none) :
    Okta.write_logs [] [e1, e2]
      = ([Line.entry (mergeSourceFirst (Json.str "okta-events") e1)], none)
    ∧ Okta.write_logs (pre ++ Line.entry j :: suf) evs
      = (pre ++ Line.entry j :: suf, some "KeyError") := by
  constructor
  · simp [Okta.write_logs, Okta.scan_published, Okta.write_loop, h1, h2, jmem,
      jmem_cons_self, hs1, Json.jeq_refl]
  · simp [Okta.write_logs, okta_scan_error_of_missing_published j hj suf pre]

/-- Witness for the amended C10 at concrete events without `published`. -/
theorem c10_amended_witness :
    Okta.write_logs [] [[("x", Json.num 1)], [("y", Json.num 2)]]
      = ([Line.entry [("source", Json.str "okta-events"), ("x", Json.num 1)]], none)
    ∧ Okta.write_logs
        [Line.bad "g", Line.entry [("source", Json.str "okta-events"), ("x", Json.num 1)]]
        [[("z", Json.num 3)]]
      = ([Line.bad "g", Line.entry [("source", Json.str "okta-events"), ("x", Json.num 1)]],
         some "KeyError") :=
  c10_amended_empty_key_then_keyerror [("x", Json.num 1)] [("y", Json.num 2)] rfl rfl rfl
    [Line.bad "g"] [] [("source", Json.str "okta-events"), ("x", Json.num 1)]
    [[("z", Json.num 3)]] rfl

/-- The `registration_details` step only assigns keys of the form
`details_registration_<reg_key>`: any other key's lookup is unchanged. -/
theorem assocGet_regStep (f1 : PyDict) (k0 : String) (v0 : Json) (key : String)
    (h : k0 = "registration_details" → ∀ regs, v0 = Json.obj regs →
      key ∉ regs.map (fun r => "details_registration_" ++ r.1)) :
    assocGet (Gitlab.regStep f1 k0 v0) key = assocGet f1 key := by
  unfold Gitlab.regStep
  by_cases hreg : k0 = "registration_details"
  · rw [if_pos hreg]
    cases v0 with
    | obj regs =>
        refine assocGet_foldl_assocSet_ne (fun kv => "details_registration_" ++ kv.1)
          regs f1 key ?_
        intro kv hkv heq
        exact (h hreg regs rfl) (heq ▸ List.mem_map_of_mem _ hkv)
    | str s => rfl
    | num n => rfl
    | bool b => rfl
    | null => rfl
    | pyobj t => rfl
    | arr xs => rfl
  · rw [if_neg hreg]

/-- The `registration_details` step never removes a key. -/
theorem isSome_regStep (f1 : PyDict) (k0 : String) (v0 : Json) (key : String)
    (h : (assocGet f1 key).isSome = true) :
    (assocGet (Gitlab.regStep f1 k0 v0) key).isSome = true := by
  unfold Gitlab.regStep
  by_cases hreg : k0 = "registration_details"
  · rw [if_pos hreg]
    cases v0 with
    | obj regs => exact assocGet_foldl_assocSet_isSome _ regs f1 key h
    | str s => exact h
    | num n => exact h
    | bool b => exact h
    | null => exact h
    | pyobj t => exact h
    | arr xs => exact h
  · rw [if_neg hreg]; exact h

/-- The details loop only assigns the keys listed in `genKeysLoop`. -/
theorem gitlab_flattenDetailsLoop_get (d : List (String × Json)) :
    ∀ (f : PyDict) (key : String), key ∉ Gitlab.genKeysLoop d →
      assocGet (Gitlab.flattenDetailsLoop f d) key = assocGet f key := by
  induction d with
  | nil => intro f key h; rfl
  | cons hd rest ih =>
      obtain ⟨k0, v0⟩ := hd
      intro f key h
      simp only [Gitlab.genKeysLoop, List.mem_cons, List.mem_append, not_or] at h
      obtain ⟨hne, hinner, hgrest⟩ := h
      simp only [Gitlab.flattenDetailsLoop]
      rw [ih _ key hgrest]
      rw [assocGet_regStep _ k0 v0 key ?hregs]
      · rw [assocGet_assocSet]
        exact if_neg (fun hh => hne hh.symm)
      case hregs =>
        intro hreg regs hv0
        rw [if_pos hreg] at hinner
        rw [hv0] at hinner
        exact hinner

/-- The details loop never removes a key. -/
theorem gitlab_flattenDetailsLoop_isSome (d : List (String × Json)) :
    ∀ (f : PyDict) (key : String), (assocGet f key).isSome = true →
      (assocGet (Gitlab.flattenDetailsLoop f d) key).isSome = true := by
  induction d with
  | nil => intro f key h; exact h
  | cons hd rest ih =>
      obtain ⟨k0, v0⟩ := hd
      intro f key h
      simp only [Gitlab.flattenDetailsLoop]
      exact ih _ key (isSome_regStep _ k0 v0 key (assocGet_assocSet_isSome f _ v0 key h))

/-- `flatten_details_field` leaves every key outside `genKeys` unchanged. -/
theorem gitlab_flatten_details_get (e : PyDict) (key : String)
    (h : key ∉ Gitlab.genKeys e) :
    assocGet (Gitlab.flatten_details_field e) key = assocGet e key := by
  unfold Gitlab.flatten_details_field
  unfold Gitlab.genKeys at h
  cases hd : assocGet e "details" with
  | none => rfl
  | some dv =>
      rw [hd] at h
      cases dv with
      | obj dfields => exact gitlab_flattenDetailsLoop_get dfields e key h
      | str s => rfl
      | num n => rfl
      | bool b => rfl
      | null => rfl
      | pyobj t => rfl
      | arr xs => rfl

/-- `flatten_details_field` never removes a key. -/
theorem gitlab_flatten_details_isSome (e : PyDict) (key : String)
    (h : (assocGet e key).isSome = true) :
    (assocGet (Gitlab.flatten_details_field e) key).isSome = true := by
  unfold Gitlab.flatten_details_field
  cases hd : assocGet e "details" with
  | none => exact h
  | some dv =>
      cases dv with
      | obj dfields => exact gitlab_flattenDetailsLoop_isSome dfields e key h
      | str s => exact h
      | num n => exact h
      | bool b => exact h
      | null => exact h
      | pyobj t => exact h
      | arr xs => exact h

/-- The target loop only assigns the keys listed in `Okta.genKeysLoop`. -/
theorem okta_flattenTargetLoop_get (l : List Json) :
    ∀ (i : Nat) (f : PyDict) (key : String), key ∉ Okta.genKeysLoop i l →
      assocGet (Okta.flattenTargetLoop f i l) key = assocGet f key := by
  induction l with
  | nil => intro i f key h; rfl
  | cons item rest ih =>
      intro i f key h
      cases item with
      | obj fs =>
          simp only [Okta.genKeysLoop, List.mem_append, not_or] at h
          obtain ⟨hfs, hrest⟩ := h
          simp only [Okta.flattenTargetLoop]
          rw [ih (i + 1) _ key hrest]
          refine assocGet_foldl_assocSet_ne
            (fun kv => "target_" ++ kv.1 ++ "_" ++ toString i) fs f key ?_
          intro kv hkv heq
          exact hfs (heq ▸ List.mem_map_of_mem _ hkv)
      | str s => exact ih (i + 1) f key h
      | num n => exact ih (i + 1) f key h
      | bool b => exact ih (i + 1) f key h
      | null => exact ih (i + 1) f key h
      | pyobj t => exact ih (i + 1) f key h
      | arr xs => exact ih (i + 1) f key h

/-- The target loop never removes a key. -/
theorem okta_flattenTargetLoop_isSome (l : List Json) :
    ∀ (i : Nat) (f : PyDict) (key : String), (assocGet f key).isSome = true →
      (assocGet (Okta.flattenTargetLoop f i l) key).isSome = true := by
  induction l with
  | nil => intro i f key h; exact h
  | cons item rest ih =>
      intro i f key h
      cases item with
      | obj fs => exact ih (i + 1) _ key (assocGet_foldl_assocSet_isSome _ fs f key h)
      | str s => exact ih (i + 1) f key h
      | num n => exact ih (i + 1) f key h
      | bool b => exact ih (i + 1) f key h
      | null => exact ih (i + 1) f key h
      | pyobj t => exact ih (i + 1) f key h
      | arr xs => exact ih (i + 1) f key h

/-- C9 (amended): neither flattener ever removes a key, and each differs
from its input only at the generated prefixed keys (`details_*` /
`details_registration_*` for GitLab, `target_<key>_<i>` for Okta): every
input key outside the generated-key set keeps its original value. A
pre-existing key that *collides* with a generated name is overwritten —
see the counterexample — which is the only correction to the claim. -/
theorem c9_amended_frame (e : PyDict) (key : String) (loads : String → Option Json)
    (out : PyDict) :
    ((key ∉ Gitlab.genKeys e →
        assocGet (Gitlab.flatten_details_field e) key = assocGet e key)
      ∧ ((assocGet e key).isSome = true →
        (assocGet (Gitlab.flatten_details_field e) key).isSome = true))
    ∧ (Okta.flatten_target_field loads e = Except.ok out →
        (key ∉ Okta.genKeys loads e → assocGet out key = assocGet e key)
        ∧ ((assocGet e key).isSome = true → (assocGet out key).isSome = true)) := by
  refine ⟨⟨gitlab_flatten_details_get e key, gitlab_flatten_details_isSome e key⟩, ?_⟩
  intro hok
  cases hta : Okta.targetArray loads e with
  | error msg =>
      simp only [Okta.flatten_target_field, hta, Except.map] at hok
      exact Except.noConfusion hok
  | ok arr =>
      simp only [Okta.flatten_target_field, hta, Except.map, Except.ok.injEq] at hok
      subst hok
      constructor
      · intro hkeys
        unfold Okta.genKeys at hkeys
        rw [hta] at hkeys
        exact okta_flattenTargetLoop_get arr 0 e key hkeys
      · intro hsome
        exact okta_flattenTargetLoop_isSome arr 0 e key hsome

/-- Witness for the amended C9 at a concrete event with a single plain
field and no `details` / `target`. -/
theorem c9_amended_witness :
    assocGet (Gitlab.flatten_details_field [("a", Json.num 1)]) "a"
      = assocGet [("a", Json.num 1)] "a"
    ∧ (assocGet (Gitlab.flatten_details_field [("a", Json.num 1)]) "a").isSome = true
    ∧ Okta.flatten_target_field (fun _ => none) [("a", Json.num 1)]
      = Except.ok [("a", Json.num 1)]
    ∧ assocGet ([("a", Json.num 1)] : PyDict) "a" = assocGet [("a", Json.num 1)] "a" := by
  have h := c9_amended_frame [("a", Json.num 1)] "a" (fun _ => none) [("a", Json.num 1)]
  exact ⟨h.1.1 (List.not_mem_nil "a"), h.1.2 rfl, rfl,
    (h.2 rfl).1 (List.not_mem_nil "a")⟩
